import Mathlib

/-!
Verification development for the cognee pipeline engine and the Ollama
embedding client.  The Ollama client definitions are translated from
`src/cognee/infrastructure/databases/vector/embeddings/OllamaEmbeddingEngine.py`.
The pipeline engine (Pipeline, PipelineRun, TaskRun, PipelineRunInfo,
DataItemStatus) is only re-exported by `src/cognee/modules/pipelines/models/__init__.py`;
its implementation files are not part of the visible sources, so the engine
is modelled from the specification text.
-/

/-! ## JSON-like values

Shallow embedding of the Python dict/list values the Ollama API response
is made of.  Numbers are modelled as rationals (the code never computes
with them, they are only carried through). -/

inductive JVal where
  | num : Rat → JVal
  | str : String → JVal
  | boolean : Bool → JVal
  | list : List JVal → JVal
  | dict : List (String × JVal) → JVal
  | null : JVal

/-- Python `d[k]` / `k in d` on a dict, modelled as first-match lookup in an
association list (Python dict keys are unique). -/
def jlookup (d : List (String × JVal)) (k : String) : Option JVal :=
  (d.find? (fun p => p.1 == k)).map (fun p => p.2)

/-! ## `OllamaEmbeddingEngine._extract_embedding_from_response`

Translated from lines 106-169 of `OllamaEmbeddingEngine.py`: checks the
`"error"` key first, then the `"embedding"`, `"embeddings"` and `"data"`
formats in that order, raising `ValueError` (modelled as `Except.error`)
on every malformed shape. -/

def extract_embedding_from_response (data : List (String × JVal)) : Except String (List JVal) :=
  if (jlookup data "error").isSome then
    .error "Ollama API returned error"
  else
    match jlookup data "embedding" with
    | some v =>
      match v with
      | .list l =>
        if l.length > 0 then .ok l
        else .error "Ollama API returned empty or invalid embedding field"
      | _ => .error "Ollama API returned empty or invalid embedding field"
    | none =>
      match jlookup data "embeddings" with
      | some v =>
        match v with
        | .list (first :: _) =>
          match first with
          | .list l =>
            if l.length > 0 then .ok l
            else .error "Ollama API returned empty or invalid embeddings field"
          | _ => .error "Ollama API returned empty or invalid embeddings field"
        | _ => .error "Ollama API returned empty or invalid embeddings field"
      | none =>
        match jlookup data "data" with
        | some v =>
          match v with
          | .list (first :: _) =>
            match first with
            | .dict fd =>
              match jlookup fd "embedding" with
              | some (.list l) =>
                if l.length > 0 then .ok l
                else .error "Ollama API returned empty or invalid data field"
              | _ => .error "Ollama API returned empty or invalid data field"
            | _ => .error "Ollama API returned empty or invalid data field"
          | _ => .error "Ollama API returned empty or invalid data field"
        | none => .error "Unexpected response format from Ollama embedding API"

/-! ## The engine record and mock gating -/

/-- The `OllamaEmbeddingEngine` instance fields set in `__init__`
(lines 55-75); the tokenizer is an external collaborator and is omitted. -/
structure OllamaEmbeddingEngine where
  model : String
  dimensions : Nat
  max_completion_tokens : Nat
  endpoint : String
  batch_size : Nat
  mock : Bool

/-- Lines 72-75 of `__init__`: `os.getenv("MOCK_EMBEDDING", "false")`
followed by membership in `("true", "1", "yes")`.  `env` is the value of
the environment variable (`none` when unset).  `os.getenv` returns a
string here, so the `isinstance(..., bool)` branch is unreachable. -/
def compute_mock (env : Option String) : Bool :=
  let enable_mocking := env.getD "false"
  enable_mocking == "true" || enable_mocking == "1" || enable_mocking == "yes"

/-- Effect-free `mapM` over `Except`, used to model both `asyncio.gather`
over fallible coroutines (the whole batch fails when one call raises)
and per-item task application. -/
def exceptMapM (f : α → Except ε β) : List α → Except ε (List β)
  | [] => .ok []
  | a :: l =>
    match f a with
    | .error e => .error e
    | .ok b =>
      match exceptMapM f l with
      | .error e => .error e
      | .ok bs => .ok (b :: bs)

/-- Function `_get_embedding` (lines 171-228): one HTTP POST to the endpoint whose
network / status / JSON-parse failures and parsed dict are abstracted into
an oracle, followed by `_extract_embedding_from_response` on the dict. -/
def get_embedding (oracle : String → Except String (List (String × JVal)))
    (prompt : String) : Except String (List JVal) :=
  match oracle prompt with
  | .error e => .error e
  | .ok data => extract_embedding_from_response data

/-- Method `embed_text` (lines 77-97): zero vectors of length `dimensions` when
mocking, otherwise one `_get_embedding` call per prompt gathered in
order. -/
def embed_text (e : OllamaEmbeddingEngine)
    (oracle : String → Except String (List (String × JVal)))
    (text : List String) : Except String (List (List JVal)) :=
  if e.mock then
    .ok (text.map (fun _ => List.replicate e.dimensions (JVal.num 0)))
  else
    exceptMapM (get_embedding oracle) text

/-- Method `get_vector_size` (lines 230-239). -/
def get_vector_size (e : OllamaEmbeddingEngine) : Nat :=
  e.dimensions

/-- Method `get_batch_size` (lines 241-248). -/
def get_batch_size (e : OllamaEmbeddingEngine) : Nat :=
  e.batch_size

/-! ## The retry decorator configuration

Lines 99-105 attach `@retry(stop=stop_after_delay(128),
wait=wait_exponential_jitter(8, 128),
retry=retry_if_not_exception_type(litellm.exceptions.NotFoundError), ...)`
to `_extract_embedding_from_response`; `_get_embedding`, the function that
performs the external call, carries no retry decorator. -/

inductive OllamaExcType where
  | notFoundError
  | authenticationError
  | valueError
  | timeout
  | serverError
  | connectionError
deriving DecidableEq

/-- Classifier `retry_if_not_exception_type(litellm.exceptions.NotFoundError)`:
an exception is retried exactly when it is not `NotFoundError`. -/
def ollama_retry_classifier (e : OllamaExcType) : Bool :=
  !(e == .notFoundError)

/-- The `@retry` decorator sits on `_extract_embedding_from_response`
(line 99). -/
def extract_embedding_has_retry : Bool := true

/-- Function `_get_embedding`, which performs the HTTP call, has no retry
decorator (lines 171-228). -/
def get_embedding_has_retry : Bool := false

/-- Tenacity's retry loop applied to an effect-free function: each retry
re-invokes the function on the same argument. -/
def tenacity_retry_pure (attempts : Nat) (f : α → Except ε β) (a : α) : Except ε β :=
  match attempts with
  | 0 => f a
  | n + 1 =>
    match f a with
    | .ok b => .ok b
    | .error _ => tenacity_retry_pure n f a

/-! ## The pipeline/task execution engine

Modelled from the spec: the implementation behind
`src/cognee/modules/pipelines/models/__init__.py` (the `Pipeline`, `Task`,
`PipelineTask`, `TaskRun`, `PipelineRun`, `PipelineRunInfo` and
`DataItemStatus` modules) is not among the visible sources, so the Run
Tracker, Task Runner / Orchestrator and Event Emitter are modelled from
spec sections 3, 4.2, 4.3, 4.5 and 7. -/

/-- Modelled from the spec: `PipelineRun` status enum
`registered → started → processing → {completed, errored}` (spec §3). -/
inductive PipelineRunStatus where
  | registered
  | started
  | processing
  | completed
  | errored
deriving DecidableEq

/-- Modelled from the spec: `TaskRun` status enum (spec §3). -/
inductive TaskRunStatus where
  | pending
  | running
  | completed
  | errored
  | skipped
deriving DecidableEq

/-- Modelled from the spec: per-item processing state
pending/processing/done/error (spec §3, `DataItemStatus`). -/
inductive DataItemStatus where
  | pending
  | processing
  | done
  | error
deriving DecidableEq

/-- Modelled from the spec: a dataset item, identified by its content
fingerprint, carrying an opaque payload. -/
structure DataItem where
  fingerprint : Nat
  payload : Int
deriving DecidableEq

/-- Modelled from the spec: a `PipelineRun` record (spec §3). -/
structure PipelineRun where
  id : Nat
  pipeline_id : Nat
  dataset_id : Nat
  status : PipelineRunStatus
deriving DecidableEq

/-- Modelled from the spec: a `TaskRun` record; `items` is the item-level
trace (the fingerprints of the input stream handed to the task). -/
structure TaskRun where
  id : Nat
  pipeline_run_id : Nat
  ordinal : Nat
  status : TaskRunStatus
  items : List Nat
deriving DecidableEq

/-- Modelled from the spec: a `DataItemStatus` row keyed by
(dataset id, fingerprint), holding the status and the id of the
PipelineRun that last touched it (spec §3). -/
structure DataItemEntry where
  dataset_id : Nat
  fingerprint : Nat
  status : DataItemStatus
  last_run_id : Nat
deriving DecidableEq

/-- Modelled from the spec: the relational store the Run Tracker owns:
PipelineRun and TaskRun tables, the durable DataItemStatus index
(newest row first), and fresh-id counters. -/
structure EngineState where
  runs : List PipelineRun
  task_runs : List TaskRun
  item_status : List DataItemEntry
  next_run_id : Nat
  next_task_run_id : Nat
deriving DecidableEq

/-- Modelled from the spec: the tagged `PipelineRunInfo` progress event
family `Started / Yield / Completed / Errored` re-exported by
`models/__init__.py`; payloads carry fingerprints or the error detail. -/
inductive PipelineRunInfo where
  | started : Nat → PipelineRunInfo
  | yield : List Nat → PipelineRunInfo
  | completed : List Nat → PipelineRunInfo
  | errored : String → PipelineRunInfo
deriving DecidableEq

/-- Modelled from the spec: `ConflictError` — an active run already
exists (spec §7). -/
inductive ConflictError where
  | conflict
deriving DecidableEq

def PipelineRunInfo.isYield : PipelineRunInfo → Bool
  | .yield _ => true
  | _ => false

def PipelineRunInfo.isTerminal : PipelineRunInfo → Bool
  | .completed _ => true
  | .errored _ => true
  | _ => false

def PipelineRunInfo.isCompletedEv : PipelineRunInfo → Bool
  | .completed _ => true
  | _ => false

/-- A `PipelineRun` status counts as active when it is `started` or
`processing` (spec §3). -/
def isActiveStatus : PipelineRunStatus → Bool
  | .started => true
  | .processing => true
  | _ => false

/-- A terminal `PipelineRun` status: `completed` or `errored`. -/
def terminalStatus : PipelineRunStatus → Bool
  | .completed => true
  | .errored => true
  | _ => false

/-- The active runs of a (pipeline id, dataset id) pair. -/
def activeRuns (st : EngineState) (pid did : Nat) : List PipelineRun :=
  st.runs.filter (fun r => r.pipeline_id == pid && r.dataset_id == did && isActiveStatus r.status)

/-- Modelled from the spec: Run Tracker `begin(pipeline_id, dataset_id)`
(spec §4.2) — `ConflictError` when an active run exists for the pair,
otherwise a PipelineRun is created in `registered` and atomically
transitioned to `started`. -/
def begin (pid did : Nat) (st : EngineState) : Except ConflictError (PipelineRun × EngineState) :=
  if (activeRuns st pid did).isEmpty then
    let createdRun : PipelineRun :=
      { id := st.next_run_id, pipeline_id := pid, dataset_id := did, status := .registered }
    let startedRun : PipelineRun := { createdRun with status := .started }
    .ok (startedRun, { st with runs := startedRun :: st.runs, next_run_id := st.next_run_id + 1 })
  else
    .error .conflict

/-- Modelled from the spec: Run Tracker `record_task_start(run_id,
task_id, ordinal)` (spec §4.2), also recording the item-level trace. -/
def record_task_start (rid ordinal : Nat) (items : List Nat) (st : EngineState) :
    TaskRun × EngineState :=
  let tr : TaskRun :=
    { id := st.next_task_run_id, pipeline_run_id := rid, ordinal := ordinal,
      status := .running, items := items }
  (tr, { st with task_runs := tr :: st.task_runs, next_task_run_id := st.next_task_run_id + 1 })

/-- Modelled from the spec: Run Tracker `record_task_end(task_run_id,
outcome)` (spec §4.2). -/
def record_task_end (task_run_id : Nat) (outcome : TaskRunStatus) (st : EngineState) :
    EngineState :=
  { st with
    task_runs := st.task_runs.map (fun tr =>
      if tr.id == task_run_id then { tr with status := outcome } else tr) }

/-- Modelled from the spec: upsert of one DataItemStatus row; the table is
kept newest-row-first, reads return the latest row for the key. -/
def setItemStatus (did f : Nat) (s : DataItemStatus) (rid : Nat) (st : EngineState) :
    EngineState :=
  { st with
    item_status :=
      { dataset_id := did, fingerprint := f, status := s, last_run_id := rid } :: st.item_status }

/-- Set the status of a batch of fingerprints for one dataset. -/
def markItems (did : Nat) (fs : List Nat) (s : DataItemStatus) (rid : Nat) (st : EngineState) :
    EngineState :=
  fs.foldl (fun acc f => setItemStatus did f s rid acc) st

/-- The current status of a (dataset, fingerprint) key; unseen keys are
`pending`. -/
def getItemStatus (st : EngineState) (did f : Nat) : DataItemStatus :=
  match st.item_status.find? (fun e => e.dataset_id == did && e.fingerprint == f) with
  | some e => e.status
  | none => .pending

/-- Modelled from the spec: Run Tracker `finalize(run_id, outcome)`
(spec §4.2) — transitions the run to the terminal outcome; finalizing an
already-terminal run is a no-op, not an error. -/
def finalize (rid : Nat) (outcome : PipelineRunStatus) (st : EngineState) : EngineState :=
  { st with
    runs := st.runs.map (fun r =>
      if r.id == rid && !terminalStatus r.status then { r with status := outcome } else r) }

/-- Modelled from the spec: pure pipeline semantics — each task maps the
stream item-wise and the first task error aborts (spec §4.1, §4.3). -/
def applyTasks (tasks : List (DataItem → Except String DataItem)) (stream : List DataItem) :
    Except String (List DataItem) :=
  match tasks with
  | [] => .ok stream
  | t :: rest =>
    match exceptMapM t stream with
    | .error e => .error e
    | .ok out => applyTasks rest out

/-- Result of driving the task list: final store state, the `Yield`
events emitted so far, and the surviving stream or the first error. -/
structure TaskLoopOut where
  state : EngineState
  events : List PipelineRunInfo
  outcome : Except String (List DataItem)

/-- Modelled from the spec: the Task Runner loop (spec §4.3 steps 2-3) —
for each task in ordinal order record a TaskRun, run the task on the
current stream, fail fast on the first error (no further task starts),
otherwise record completion, emit a `Yield` with the output batch and
feed the output to the next task. -/
def runTasksLoop (rid : Nat) (tasks : List (DataItem → Except String DataItem))
    (ordinal : Nat) (stream : List DataItem) (st : EngineState) : TaskLoopOut :=
  match tasks with
  | [] => ⟨st, [], .ok stream⟩
  | t :: rest =>
    let startRes := record_task_start rid ordinal (stream.map (fun i => i.fingerprint)) st
    match exceptMapM t stream with
    | .error e =>
      ⟨record_task_end startRes.1.id .errored startRes.2, [], .error e⟩
    | .ok outStream =>
      let st2 := record_task_end startRes.1.id .completed startRes.2
      let res := runTasksLoop rid rest (ordinal + 1) outStream st2
      ⟨res.state, .yield (outStream.map (fun i => i.fingerprint)) :: res.events, res.outcome⟩

/-- Modelled from the spec: the idempotence filter (spec §4.3 step 1) —
items already `done` are dropped unless reprocessing is forced. -/
def pipelineInput (st : EngineState) (did : Nat) (items : List DataItem)
    (force_reprocess : Bool) : List DataItem :=
  if force_reprocess then items
  else items.filter (fun i => !(getItemStatus st did i.fingerprint == .done))

/-- Modelled from the spec: `run_pipeline(pipeline_id, dataset_id,
force_reprocess)` (spec §4.3, §4.5, §6, §7) — begin the run, filter the
dataset, drive the tasks; on success mark the processed items `done` and
finalize `completed`; on a task error mark the run's in-flight items
`error` and finalize `errored`.  The returned event list is the
`PipelineRunInfo` stream delivered to the caller. -/
def run_pipeline (pid did : Nat) (tasks : List (DataItem → Except String DataItem))
    (items : List DataItem) (force_reprocess : Bool) (st0 : EngineState) :
    Except ConflictError (EngineState × List PipelineRunInfo) :=
  match begin pid did st0 with
  | .error e => .error e
  | .ok (run, st1) =>
    match (runTasksLoop run.id tasks 0 (pipelineInput st1 did items force_reprocess) st1).outcome with
    | .ok _ =>
      .ok (finalize run.id .completed
            (markItems did
              ((pipelineInput st1 did items force_reprocess).map (fun i => i.fingerprint))
              .done run.id
              (runTasksLoop run.id tasks 0 (pipelineInput st1 did items force_reprocess) st1).state),
        .started run.id ::
          (runTasksLoop run.id tasks 0 (pipelineInput st1 did items force_reprocess) st1).events
            ++ [.completed ((pipelineInput st1 did items force_reprocess).map (fun i => i.fingerprint))])
    | .error e =>
      .ok (finalize run.id .errored
            (markItems did
              ((pipelineInput st1 did items force_reprocess).map (fun i => i.fingerprint))
              .error run.id
              (runTasksLoop run.id tasks 0 (pipelineInput st1 did items force_reprocess) st1).state),
        .started run.id ::
          (runTasksLoop run.id tasks 0 (pipelineInput st1 did items force_reprocess) st1).events
            ++ [.errored e])

/-! ## Store well-formedness

Fresh-id discipline of the store: every recorded id is below its
counter.  Holds for the empty store and is preserved by every engine
operation. -/

def wfTaskIds (st : EngineState) : Prop :=
  ∀ tr ∈ st.task_runs, tr.id < st.next_task_run_id

def wfRunIds (st : EngineState) : Prop :=
  ∀ r ∈ st.runs, r.id < st.next_run_id

def wfTaskRunRefs (st : EngineState) : Prop :=
  ∀ tr ∈ st.task_runs, tr.pipeline_run_id < st.next_run_id

def wfStore (st : EngineState) : Prop :=
  wfTaskIds st ∧ wfRunIds st ∧ wfTaskRunRefs st

instance : DecidablePred wfTaskIds := fun st =>
  inferInstanceAs (Decidable (∀ tr ∈ st.task_runs, tr.id < st.next_task_run_id))

instance : DecidablePred wfRunIds := fun st =>
  inferInstanceAs (Decidable (∀ r ∈ st.runs, r.id < st.next_run_id))

instance : DecidablePred wfTaskRunRefs := fun st =>
  inferInstanceAs (Decidable (∀ tr ∈ st.task_runs, tr.pipeline_run_id < st.next_run_id))

instance : DecidablePred wfStore := fun st =>
  inferInstanceAs (Decidable (wfTaskIds st ∧ wfRunIds st ∧ wfTaskRunRefs st))

/-! ## Concrete scenario used by the witnesses -/

def idTask : DataItem → Except String DataItem := fun i => .ok i

def failTask : DataItem → Except String DataItem := fun _ => .error "boom"

def emptyStore : EngineState := ⟨[], [], [], 0, 0⟩

def demoItems : List DataItem := [⟨1, 10⟩, ⟨2, 20⟩]

/-- Final store of a pipeline run (the initial store when the run was
refused). -/
def runStateOf (pid did : Nat) (tasks : List (DataItem → Except String DataItem))
    (items : List DataItem) (force_reprocess : Bool) (st0 : EngineState) : EngineState :=
  match run_pipeline pid did tasks items force_reprocess st0 with
  | .ok (st, _) => st
  | .error _ => st0

/-- Event stream of a pipeline run (empty when the run was refused). -/
def runEventsOf (pid did : Nat) (tasks : List (DataItem → Except String DataItem))
    (items : List DataItem) (force_reprocess : Bool) (st0 : EngineState) :
    List PipelineRunInfo :=
  match run_pipeline pid did tasks items force_reprocess st0 with
  | .ok (_, evs) => evs
  | .error _ => []

def demoOkState : EngineState := runStateOf 1 2 [idTask] demoItems false emptyStore

def demoOkEvents : List PipelineRunInfo := runEventsOf 1 2 [idTask] demoItems false emptyStore

def demoOk2State : EngineState := runStateOf 1 2 [idTask] demoItems false demoOkState

def demoOk2Events : List PipelineRunInfo := runEventsOf 1 2 [idTask] demoItems false demoOkState

def demoFailState : EngineState :=
  runStateOf 1 2 [idTask, failTask, idTask] demoItems false emptyStore

def demoFailEvents : List PipelineRunInfo :=
  runEventsOf 1 2 [idTask, failTask, idTask] demoItems false emptyStore

/-! ## Shared lemmas -/

theorem exceptMapM_ok_length (f : α → Except ε β) :
    ∀ (l : List α) (out : List β), exceptMapM f l = .ok out → out.length = l.length := by
  intro l
  induction l with
  | nil =>
    intro out h
    simp only [exceptMapM] at h
    cases h
    rfl
  | cons a l ih =>
    intro out h
    simp only [exceptMapM] at h
    cases hf : f a with
    | error e => rw [hf] at h; cases h
    | ok b =>
      rw [hf] at h
      cases hrec : exceptMapM f l with
      | error e => rw [hrec] at h; cases h
      | ok bs =>
        rw [hrec] at h
        cases h
        simp [ih bs hrec]

/-! ## Claims about the Ollama embedding client -/

/-- Claim C5: the claim says every external-service step retries under
bounded exponential backoff with jitter and a total-wait bound, retrying
timeouts/5xx/connection errors while not-found, auth and
malformed-request errors abort immediately.  The code instead puts the
`@retry` decorator on the effect-free parser
`_extract_embedding_from_response` and none on `_get_embedding`, the
function that performs the HTTP call; its classifier treats only
`NotFoundError` as non-retryable, so auth and malformed-request
(`ValueError`) failures are retried, and retrying the deterministic
parser can never change its outcome. -/
theorem C5_retry_decorator_misplaced :
    get_embedding_has_retry = false ∧
    extract_embedding_has_retry = true ∧
    ollama_retry_classifier .valueError = true ∧
    ollama_retry_classifier .authenticationError = true ∧
    ollama_retry_classifier .connectionError = true ∧
    ollama_retry_classifier .notFoundError = false ∧
    ∀ (n : Nat) (d : List (String × JVal)),
      tenacity_retry_pure n extract_embedding_from_response d =
        extract_embedding_from_response d := by
  refine ⟨rfl, rfl, rfl, rfl, rfl, rfl, ?_⟩
  intro n d
  induction n with
  | zero => rfl
  | succ n ih =>
    simp only [tenacity_retry_pure]
    cases h : extract_embedding_from_response d with
    | ok v => rfl
    | error e => exact ih.trans h

/-- Claim C8: method `embed_text` returns exactly one vector per input text, and
with mocking enabled each vector is the zero vector of length
`get_vector_size()`. -/
theorem C8_embed_text_shape (e : OllamaEmbeddingEngine)
    (oracle : String → Except String (List (String × JVal)))
    (texts : List String) (out : List (List JVal))
    (h : embed_text e oracle texts = .ok out) :
    out.length = texts.length ∧
    (e.mock = true →
      out = texts.map (fun _ => List.replicate e.dimensions (JVal.num 0)) ∧
      ∀ v ∈ out, v.length = get_vector_size e ∧ ∀ c ∈ v, c = JVal.num 0) := by
  unfold embed_text at h
  by_cases hm : e.mock
  · rw [if_pos hm] at h
    cases h
    constructor
    · simp
    · intro _
      refine ⟨rfl, ?_⟩
      intro v hv
      rcases List.mem_map.1 hv with ⟨t, _, rfl⟩
      constructor
      · simp [get_vector_size]
      · intro c hc
        exact List.eq_of_mem_replicate hc
  · rw [if_neg hm] at h
    refine ⟨exceptMapM_ok_length _ _ _ h, ?_⟩
    intro hmt
    exact absurd hmt hm

theorem C8_embed_text_shape_witness :
    (List.replicate 3 (JVal.num 0) :: List.replicate 3 (JVal.num 0) :: []).length =
      ["a", "b"].length ∧
    ((⟨"m", 3, 512, "ep", 100, true⟩ : OllamaEmbeddingEngine).mock = true →
      (List.replicate 3 (JVal.num 0) :: List.replicate 3 (JVal.num 0) :: []) =
        ["a", "b"].map (fun _ => List.replicate 3 (JVal.num 0)) ∧
      ∀ v ∈ (List.replicate 3 (JVal.num 0) :: List.replicate 3 (JVal.num 0) :: []),
        v.length = get_vector_size ⟨"m", 3, 512, "ep", 100, true⟩ ∧
        ∀ c ∈ v, c = JVal.num 0) :=
  C8_embed_text_shape ⟨"m", 3, 512, "ep", 100, true⟩ (fun _ => .error "net") ["a", "b"]
    (List.replicate 3 (JVal.num 0) :: List.replicate 3 (JVal.num 0) :: []) rfl

/-- Claim C9: the parser `_extract_embedding_from_response` raises on any response
carrying an `"error"` key, raises when none of the three recognized
formats is present, only ever returns non-empty vectors, and resolves the
formats with `"embedding"` before `"embeddings"` before `"data"`. -/
theorem C9_extract_response_props (d : List (String × JVal)) :
    ((jlookup d "error").isSome = true →
      ∃ m, extract_embedding_from_response d = .error m) ∧
    (jlookup d "error" = none → jlookup d "embedding" = none →
      jlookup d "embeddings" = none → jlookup d "data" = none →
      ∃ m, extract_embedding_from_response d = .error m) ∧
    (∀ v, extract_embedding_from_response d = .ok v → v ≠ []) ∧
    (∀ l, jlookup d "error" = none → jlookup d "embedding" = some (.list l) → l ≠ [] →
      extract_embedding_from_response d = .ok l) ∧
    (∀ l rest, jlookup d "error" = none → jlookup d "embedding" = none →
      jlookup d "embeddings" = some (.list (.list l :: rest)) → l ≠ [] →
      extract_embedding_from_response d = .ok l) := by
  refine ⟨?_, ?_, ?_, ?_, ?_⟩
  · intro h
    unfold extract_embedding_from_response
    rw [if_pos h]
    exact ⟨_, rfl⟩
  · intro h1 h2 h3 h4
    simp only [extract_embedding_from_response, h1, h2, h3, h4, Option.isSome_none,
      Bool.false_eq_true, if_false]
    exact ⟨_, rfl⟩
  · intro v h
    unfold extract_embedding_from_response at h
    split at h
    all_goals try split at h
    all_goals try split at h
    all_goals try split at h
    all_goals try split at h
    all_goals try split at h
    all_goals try split at h
    all_goals try split at h
    all_goals try exact Except.noConfusion h
    all_goals injection h with h2
    all_goals subst h2
    all_goals exact List.ne_nil_of_length_pos (by assumption)
  · intro l h1 h2 h3
    simp only [extract_embedding_from_response, h1, h2, Option.isSome_none,
      Bool.false_eq_true, if_false]
    rw [if_pos (List.length_pos.mpr h3)]
  · intro l rest h1 h2 h3 h4
    simp only [extract_embedding_from_response, h1, h2, h3, Option.isSome_none,
      Bool.false_eq_true, if_false]
    rw [if_pos (List.length_pos.mpr h4)]

theorem C9_extract_response_props_witness :
    ∃ m, extract_embedding_from_response [("error", JVal.str "model missing")] = .error m :=
  (C9_extract_response_props [("error", JVal.str "model missing")]).1 rfl

/-- Claim C10: mocking is enabled exactly when the `MOCK_EMBEDDING`
environment variable is one of the case-sensitive strings `"true"`,
`"1"`, `"yes"`; other spellings and an unset variable leave it disabled,
and a mocked `embed_text` never consults the external endpoint (its
result is oracle-independent). -/
theorem C10_mock_gating :
    (∀ env, compute_mock env = true ↔
      (env = some "true" ∨ env = some "1" ∨ env = some "yes")) ∧
    compute_mock (some "True") = false ∧
    compute_mock (some "YES") = false ∧
    compute_mock none = false ∧
    (∀ (e : OllamaEmbeddingEngine) o1 o2 texts, e.mock = true →
      embed_text e o1 texts = embed_text e o2 texts) := by
  refine ⟨?_, rfl, rfl, rfl, ?_⟩
  · intro env
    cases env with
    | none => simp [compute_mock]
    | some s => simp [compute_mock, or_assoc]
  · intro e o1 o2 texts hm
    unfold embed_text
    rw [if_pos hm, if_pos hm]

theorem C10_mock_gating_witness :
    embed_text ⟨"m", 3, 512, "ep", 100, true⟩ (fun _ => .error "netdown") ["x"] =
      embed_text ⟨"m", 3, 512, "ep", 100, true⟩ (fun _ => .ok [("embedding", JVal.list [JVal.num 1])]) ["x"] :=
  C10_mock_gating.2.2.2.2 ⟨"m", 3, 512, "ep", 100, true⟩ _ _ ["x"] rfl

/-! ## Store lemmas -/

theorem getItemStatus_setItemStatus (st : EngineState) (did g : Nat) (s : DataItemStatus)
    (rid d f : Nat) :
    getItemStatus (setItemStatus did g s rid st) d f =
      if d = did ∧ f = g then s else getItemStatus st d f := by
  unfold getItemStatus setItemStatus
  by_cases h1 : d = did ∧ f = g
  · obtain ⟨h1a, h1b⟩ := h1
    subst h1a
    subst h1b
    rw [List.find?_cons_of_pos _ (by simp)]
    simp
  · rw [if_neg h1]
    rw [List.find?_cons_of_neg _ ?_]
    simp only [Bool.and_eq_true, beq_iff_eq]
    intro hc
    exact h1 ⟨hc.1.symm, hc.2.symm⟩

theorem getItemStatus_markItems (did : Nat) (s : DataItemStatus) (rid : Nat) :
    ∀ (fs : List Nat) (st : EngineState) (d f : Nat),
      getItemStatus (markItems did fs s rid st) d f =
        if d = did ∧ f ∈ fs then s else getItemStatus st d f := by
  intro fs
  induction fs with
  | nil =>
    intro st d f
    simp [markItems]
  | cons g rest ih =>
    intro st d f
    show getItemStatus (markItems did rest s rid (setItemStatus did g s rid st)) d f = _
    rw [ih, getItemStatus_setItemStatus]
    by_cases h1 : d = did ∧ f ∈ rest
    · rw [if_pos h1, if_pos ⟨h1.1, List.mem_cons_of_mem g h1.2⟩]
    · rw [if_neg h1]
      by_cases h2 : d = did ∧ f = g
      · rw [if_pos h2, if_pos ⟨h2.1, h2.2 ▸ List.mem_cons_self g rest⟩]
      · rw [if_neg h2, if_neg ?_]
        intro hc
        rcases List.mem_cons.1 hc.2 with hg | hr
        · exact h2 ⟨hc.1, hg⟩
        · exact h1 ⟨hc.1, hr⟩

theorem markItems_runs (did : Nat) (s : DataItemStatus) (rid : Nat) :
    ∀ (fs : List Nat) (st : EngineState),
      (markItems did fs s rid st).runs = st.runs ∧
      (markItems did fs s rid st).task_runs = st.task_runs ∧
      (markItems did fs s rid st).next_run_id = st.next_run_id ∧
      (markItems did fs s rid st).next_task_run_id = st.next_task_run_id := by
  intro fs
  induction fs with
  | nil => intro st; exact ⟨rfl, rfl, rfl, rfl⟩
  | cons g rest ih =>
    intro st
    have h := ih (setItemStatus did g s rid st)
    exact ⟨h.1, h.2.1, h.2.2.1, h.2.2.2⟩

theorem finalize_item_status (rid : Nat) (o : PipelineRunStatus) (st : EngineState) :
    (finalize rid o st).item_status = st.item_status ∧
    (finalize rid o st).task_runs = st.task_runs ∧
    (finalize rid o st).next_run_id = st.next_run_id ∧
    (finalize rid o st).next_task_run_id = st.next_task_run_id :=
  ⟨rfl, rfl, rfl, rfl⟩

theorem finalize_noop (rid : Nat) (o : PipelineRunStatus) (st : EngineState)
    (h : ∀ r ∈ st.runs, r.id = rid → terminalStatus r.status = true) :
    finalize rid o st = st := by
  unfold finalize
  have : st.runs.map (fun r =>
      if r.id == rid && !terminalStatus r.status then { r with status := o } else r) = st.runs := by
    rw [List.map_congr_left (g := id), List.map_id]
    intro r hr
    simp only [id]
    rw [if_neg ?_]
    simp only [Bool.and_eq_true, beq_iff_eq, Bool.not_eq_true']
    rintro ⟨hc1, hc2⟩
    rw [h r hr hc1] at hc2
    exact Bool.noConfusion hc2
  rw [this]

theorem finalize_terminal (rid : Nat) (o : PipelineRunStatus) (st : EngineState)
    (ho : terminalStatus o = true) :
    ∀ r ∈ (finalize rid o st).runs, r.id = rid → terminalStatus r.status = true := by
  intro r hr hid
  unfold finalize at hr
  simp only [List.mem_map] at hr
  obtain ⟨r0, hr0, hmap⟩ := hr
  by_cases hc : (r0.id == rid && !terminalStatus r0.status) = true
  · rw [if_pos hc] at hmap
    rw [← hmap]
    exact ho
  · rw [if_neg hc] at hmap
    subst hmap
    simp only [Bool.and_eq_true, beq_iff_eq, Bool.not_eq_true', not_and] at hc
    cases ht : terminalStatus r0.status with
    | false => exact absurd ht (hc hid)
    | true => rfl

theorem finalize_transition (rid : Nat) (o : PipelineRunStatus) (st : EngineState)
    (r : PipelineRun) (hr : r ∈ st.runs) (hid : r.id = rid)
    (hnt : terminalStatus r.status = false) :
    { r with status := o } ∈ (finalize rid o st).runs := by
  unfold finalize
  simp only [List.mem_map]
  refine ⟨r, hr, ?_⟩
  rw [if_pos (by simp [hid, hnt])]

/-! ## Task-loop lemmas -/

theorem runTasksLoop_nil (rid ord : Nat) (stream : List DataItem) (st : EngineState) :
    runTasksLoop rid [] ord stream st = ⟨st, [], .ok stream⟩ := rfl

theorem runTasksLoop_cons_err (rid : Nat) (t : DataItem → Except String DataItem)
    (rest : List (DataItem → Except String DataItem)) (ord : Nat) (stream : List DataItem)
    (st : EngineState) (e : String) (hm : exceptMapM t stream = .error e) :
    runTasksLoop rid (t :: rest) ord stream st =
      ⟨record_task_end st.next_task_run_id .errored
          (record_task_start rid ord (stream.map fun i => i.fingerprint) st).2,
        [], .error e⟩ := by
  unfold runTasksLoop
  rw [hm]
  rfl

theorem runTasksLoop_cons_ok (rid : Nat) (t : DataItem → Except String DataItem)
    (rest : List (DataItem → Except String DataItem)) (ord : Nat) (stream : List DataItem)
    (st : EngineState) (outStream : List DataItem) (hm : exceptMapM t stream = .ok outStream) :
    runTasksLoop rid (t :: rest) ord stream st =
      ⟨(runTasksLoop rid rest (ord + 1) outStream
          (record_task_end st.next_task_run_id .completed
            (record_task_start rid ord (stream.map fun i => i.fingerprint) st).2)).state,
        .yield (outStream.map fun i => i.fingerprint) ::
          (runTasksLoop rid rest (ord + 1) outStream
            (record_task_end st.next_task_run_id .completed
              (record_task_start rid ord (stream.map fun i => i.fingerprint) st).2)).events,
        (runTasksLoop rid rest (ord + 1) outStream
          (record_task_end st.next_task_run_id .completed
            (record_task_start rid ord (stream.map fun i => i.fingerprint) st).2)).outcome⟩ := by
  conv_lhs => unfold runTasksLoop
  rw [hm]
  rfl

theorem record_task_end_cons (st : EngineState) (tr : TaskRun) (trs : List TaskRun)
    (o : TaskRunStatus) (htr : st.task_runs = tr :: trs) (h : ∀ tr' ∈ trs, tr'.id ≠ tr.id) :
    record_task_end tr.id o st = { st with task_runs := { tr with status := o } :: trs } := by
  unfold record_task_end
  rw [htr]
  rw [List.map_cons, if_pos (by simp)]
  have : trs.map (fun tr' =>
      if tr'.id == tr.id then { tr' with status := o } else tr') = trs := by
    rw [List.map_congr_left (g := id), List.map_id]
    intro tr' htr'
    simp only [id]
    rw [if_neg (by simp [h tr' htr'])]
  rw [this]

/-- One loop step on a store with fresh task-run ids: start + end collapse
to consing one finished TaskRun record. -/
theorem loop_step_state (rid ord : Nat) (items : List Nat) (st : EngineState)
    (o : TaskRunStatus) (hwf : wfTaskIds st) :
    record_task_end st.next_task_run_id o
        (record_task_start rid ord items st).2 =
      { st with
        task_runs :=
          ⟨st.next_task_run_id, rid, ord, o, items⟩ :: st.task_runs,
        next_task_run_id := st.next_task_run_id + 1 } := by
  have h := record_task_end_cons (record_task_start rid ord items st).2
    ⟨st.next_task_run_id, rid, ord, .running, items⟩ st.task_runs o rfl
    (fun tr' htr' => Nat.ne_of_lt (hwf tr' htr'))
  exact h

theorem wfTaskIds_step (rid ord : Nat) (items : List Nat) (st : EngineState)
    (o : TaskRunStatus) (hwf : wfTaskIds st) :
    wfTaskIds
      { st with
        task_runs :=
          ⟨st.next_task_run_id, rid, ord, o, items⟩ :: st.task_runs,
        next_task_run_id := st.next_task_run_id + 1 } := by
  intro tr htr
  rcases List.mem_cons.1 htr with h | h
  · subst h
    exact Nat.lt_succ_self _
  · exact Nat.lt_succ_of_lt (hwf tr h)

theorem runTasksLoop_inv (rid : Nat) :
    ∀ (tasks : List (DataItem → Except String DataItem)) (ord : Nat)
      (stream : List DataItem) (st : EngineState),
      (runTasksLoop rid tasks ord stream st).state.runs = st.runs ∧
      (runTasksLoop rid tasks ord stream st).state.item_status = st.item_status ∧
      (runTasksLoop rid tasks ord stream st).state.next_run_id = st.next_run_id := by
  intro tasks
  induction tasks with
  | nil => intro ord stream st; exact ⟨rfl, rfl, rfl⟩
  | cons t rest ih =>
    intro ord stream st
    cases hm : exceptMapM t stream with
    | error e =>
      rw [runTasksLoop_cons_err rid t rest ord stream st e hm]
      exact ⟨rfl, rfl, rfl⟩
    | ok outStream =>
      rw [runTasksLoop_cons_ok rid t rest ord stream st outStream hm]
      exact ih (ord + 1) outStream _

theorem runTasksLoop_events_yield (rid : Nat) :
    ∀ (tasks : List (DataItem → Except String DataItem)) (ord : Nat)
      (stream : List DataItem) (st : EngineState),
      ∀ ev ∈ (runTasksLoop rid tasks ord stream st).events, ev.isYield = true := by
  intro tasks
  induction tasks with
  | nil => intro ord stream st ev hev; cases hev
  | cons t rest ih =>
    intro ord stream st ev hev
    cases hm : exceptMapM t stream with
    | error e =>
      rw [runTasksLoop_cons_err rid t rest ord stream st e hm] at hev
      cases hev
    | ok outStream =>
      rw [runTasksLoop_cons_ok rid t rest ord stream st outStream hm] at hev
      rcases List.mem_cons.1 hev with h | h
      · subst h; rfl
      · exact ih (ord + 1) outStream _ ev h

theorem wfTaskIds_record_task_start (rid ord : Nat) (items : List Nat) (st : EngineState)
    (h : wfTaskIds st) : wfTaskIds (record_task_start rid ord items st).2 := by
  intro tr htr
  rcases List.mem_cons.1 htr with hh | hh
  · subst hh
    exact Nat.lt_succ_self _
  · exact Nat.lt_succ_of_lt (h tr hh)

theorem wfTaskIds_record_task_end (tid : Nat) (o : TaskRunStatus) (st : EngineState)
    (h : wfTaskIds st) : wfTaskIds (record_task_end tid o st) := by
  intro tr htr
  unfold record_task_end at htr
  simp only [List.mem_map] at htr
  obtain ⟨tr0, h0, hmap⟩ := htr
  have hid : tr.id = tr0.id := by
    by_cases hc : (tr0.id == tid) = true
    · rw [if_pos hc] at hmap
      rw [← hmap]
    · rw [if_neg hc] at hmap
      rw [← hmap]
  show tr.id < st.next_task_run_id
  rw [hid]
  exact h tr0 h0

theorem runTasksLoop_wfTaskIds (rid : Nat) :
    ∀ (tasks : List (DataItem → Except String DataItem)) (ord : Nat)
      (stream : List DataItem) (st : EngineState), wfTaskIds st →
      wfTaskIds (runTasksLoop rid tasks ord stream st).state := by
  intro tasks
  induction tasks with
  | nil => intro ord stream st h; exact h
  | cons t rest ih =>
    intro ord stream st h
    cases hm : exceptMapM t stream with
    | error e =>
      rw [runTasksLoop_cons_err rid t rest ord stream st e hm]
      exact wfTaskIds_record_task_end _ _ _ (wfTaskIds_record_task_start _ _ _ _ h)
    | ok outStream =>
      rw [runTasksLoop_cons_ok rid t rest ord stream st outStream hm]
      exact ih (ord + 1) outStream _
        (wfTaskIds_record_task_end _ _ _ (wfTaskIds_record_task_start _ _ _ _ h))

theorem runTasksLoop_nil_stream (rid : Nat) :
    ∀ (tasks : List (DataItem → Except String DataItem)) (ord : Nat) (st : EngineState),
      wfTaskIds st →
      (runTasksLoop rid tasks ord [] st).outcome = .ok [] ∧
      ∀ tr ∈ (runTasksLoop rid tasks ord [] st).state.task_runs,
        tr ∈ st.task_runs ∨ tr.items = [] := by
  intro tasks
  induction tasks with
  | nil =>
    intro ord st _
    exact ⟨rfl, fun tr htr => .inl htr⟩
  | cons t rest ih =>
    intro ord st hwf
    rw [runTasksLoop_cons_ok rid t rest ord [] st [] rfl]
    rw [loop_step_state rid ord _ st .completed hwf]
    obtain ⟨ho, hmem⟩ := ih (ord + 1)
      { st with
        task_runs := ⟨st.next_task_run_id, rid, ord, .completed, ([] : List Nat)⟩ :: st.task_runs,
        next_task_run_id := st.next_task_run_id + 1 }
      (wfTaskIds_step rid ord ([] : List Nat) st .completed hwf)
    constructor
    · exact ho
    · intro tr htr
      rcases hmem tr htr with h | h
      · rcases List.mem_cons.1 h with hh | hh
        · subst hh
          exact .inr rfl
        · exact .inl hh
      · exact .inr h

theorem begin_ok_inv (pid did : Nat) (st0 : EngineState) (run : PipelineRun)
    (st1 : EngineState) (h : begin pid did st0 = .ok (run, st1)) :
    run = ⟨st0.next_run_id, pid, did, .started⟩ ∧
    st1 = { st0 with runs := run :: st0.runs, next_run_id := st0.next_run_id + 1 } ∧
    (activeRuns st0 pid did).isEmpty = true := by
  unfold begin at h
  by_cases hc : (activeRuns st0 pid did).isEmpty = true
  · rw [if_pos hc] at h
    cases h
    exact ⟨rfl, rfl, hc⟩
  · rw [if_neg hc] at h
    cases h

theorem runTasksLoop_err (rid : Nat) :
    ∀ (pre : List (DataItem → Except String DataItem)) (t : DataItem → Except String DataItem)
      (post : List (DataItem → Except String DataItem)) (ord : Nat) (input : List DataItem)
      (st : EngineState) (mid : List DataItem) (e : String),
      wfTaskIds st →
      applyTasks pre input = .ok mid →
      exceptMapM t mid = .error e →
      (runTasksLoop rid (pre ++ t :: post) ord input st).outcome = .error e ∧
      (runTasksLoop rid (pre ++ t :: post) ord input st).state.next_task_run_id =
        st.next_task_run_id + (pre.length + 1) ∧
      (∀ tr ∈ (runTasksLoop rid (pre ++ t :: post) ord input st).state.task_runs,
        tr ∈ st.task_runs ∨
          (tr.pipeline_run_id = rid ∧ ord ≤ tr.ordinal ∧ tr.ordinal ≤ ord + pre.length)) ∧
      (∃ tr ∈ (runTasksLoop rid (pre ++ t :: post) ord input st).state.task_runs,
        tr.pipeline_run_id = rid ∧ tr.ordinal = ord + pre.length ∧ tr.status = .errored ∧
        tr.items = mid.map (fun i => i.fingerprint)) := by
  intro pre
  induction pre with
  | nil =>
    intro t post ord input st mid e hwf hpre hfail
    have hmid : input = mid := by
      simp only [applyTasks] at hpre
      cases hpre
      rfl
    subst hmid
    rw [List.nil_append]
    rw [runTasksLoop_cons_err rid t post ord input st e hfail]
    rw [loop_step_state rid ord _ st .errored hwf]
    refine ⟨rfl, rfl, ?_, ?_⟩
    · intro tr htr
      rcases List.mem_cons.1 htr with hh | hh
      · subst hh
        exact .inr ⟨rfl, Nat.le_refl _, Nat.le_add_right _ _⟩
      · exact .inl hh
    · refine ⟨⟨st.next_task_run_id, rid, ord, .errored,
        input.map (fun i => i.fingerprint)⟩, List.mem_cons_self _ _, rfl, ?_, rfl, rfl⟩
      simp
  | cons p pre' ih =>
    intro t post ord input st mid e hwf hpre hfail
    cases hp : exceptMapM p input with
    | error e2 =>
      unfold applyTasks at hpre
      rw [hp] at hpre
      cases hpre
    | ok out1 =>
      have hpre' : applyTasks pre' out1 = .ok mid := by
        unfold applyTasks at hpre
        rw [hp] at hpre
        exact hpre
      rw [List.cons_append]
      rw [runTasksLoop_cons_ok rid p (pre' ++ t :: post) ord input st out1 hp]
      rw [loop_step_state rid ord _ st .completed hwf]
      obtain ⟨ho, hn, hall, hex⟩ := ih t post (ord + 1) out1
        { st with
          task_runs := ⟨st.next_task_run_id, rid, ord, .completed,
            input.map (fun i => i.fingerprint)⟩ :: st.task_runs,
          next_task_run_id := st.next_task_run_id + 1 }
        mid e (wfTaskIds_step rid ord _ st .completed hwf) hpre' hfail
      refine ⟨ho, ?_, ?_, ?_⟩
      · rw [hn]
        show st.next_task_run_id + 1 + (pre'.length + 1) =
          st.next_task_run_id + (pre'.length + 1 + 1)
        omega
      · intro tr htr
        rcases hall tr htr with h | ⟨h1, h2, h3⟩
        · rcases List.mem_cons.1 h with hh | hh
          · subst hh
            exact .inr ⟨rfl, Nat.le_refl _, Nat.le_add_right _ _⟩
          · exact .inl hh
        · refine .inr ⟨h1, ?_, ?_⟩
          · omega
          · show tr.ordinal ≤ ord + (pre'.length + 1)
            omega
      · obtain ⟨tr, htr, ht1, ht2, ht3, ht4⟩ := hex
        refine ⟨tr, htr, ht1, ?_, ht3, ht4⟩
        show tr.ordinal = ord + (pre'.length + 1)
        omega

/-- Inversion of a successful `run_pipeline` call into its begin / loop /
finalize components. -/
theorem run_pipeline_inv (pid did : Nat) (tasks : List (DataItem → Except String DataItem))
    (items : List DataItem) (force : Bool) (st0 st' : EngineState)
    (evs : List PipelineRunInfo)
    (h : run_pipeline pid did tasks items force st0 = .ok (st', evs)) :
    ∃ run st1, begin pid did st0 = .ok (run, st1) ∧
      ((∃ fin,
        (runTasksLoop run.id tasks 0 (pipelineInput st1 did items force) st1).outcome = .ok fin ∧
        st' = finalize run.id .completed
          (markItems did ((pipelineInput st1 did items force).map (fun i => i.fingerprint))
            .done run.id
            (runTasksLoop run.id tasks 0 (pipelineInput st1 did items force) st1).state) ∧
        evs = .started run.id ::
          (runTasksLoop run.id tasks 0 (pipelineInput st1 did items force) st1).events
            ++ [.completed ((pipelineInput st1 did items force).map (fun i => i.fingerprint))]) ∨
      (∃ e,
        (runTasksLoop run.id tasks 0 (pipelineInput st1 did items force) st1).outcome = .error e ∧
        st' = finalize run.id .errored
          (markItems did ((pipelineInput st1 did items force).map (fun i => i.fingerprint))
            .error run.id
            (runTasksLoop run.id tasks 0 (pipelineInput st1 did items force) st1).state) ∧
        evs = .started run.id ::
          (runTasksLoop run.id tasks 0 (pipelineInput st1 did items force) st1).events
            ++ [.errored e])) := by
  unfold run_pipeline at h
  split at h
  · exact Except.noConfusion h
  · rename_i run st1 heq
    split at h
    · rename_i fin heq2
      cases h
      exact ⟨run, st1, heq, .inl ⟨fin, heq2, rfl, rfl⟩⟩
    · rename_i e heq2
      cases h
      exact ⟨run, st1, heq, .inr ⟨e, heq2, rfl, rfl⟩⟩

/-! ## Claims about the pipeline engine (spec-modelled) -/

/-- Claim C1: for every pipeline run, the event stream delivered to the
caller is exactly one `Started` first, then zero or more `Yield` events,
then exactly one terminal event (`Completed` xor `Errored`) last, with
nothing after the terminal event. -/
theorem C1_event_stream_shape (pid did : Nat)
    (tasks : List (DataItem → Except String DataItem)) (items : List DataItem)
    (force : Bool) (st0 st' : EngineState) (evs : List PipelineRunInfo)
    (h : run_pipeline pid did tasks items force st0 = .ok (st', evs)) :
    ∃ rid mids term, evs = .started rid :: mids ++ [term] ∧
      (∀ ev ∈ mids, ev.isYield = true) ∧ term.isTerminal = true := by
  obtain ⟨run, st1, _, hcase⟩ := run_pipeline_inv pid did tasks items force st0 st' evs h
  rcases hcase with ⟨fin, _, _, hevs⟩ | ⟨e, _, _, hevs⟩
  · exact ⟨run.id, _, _, hevs,
      runTasksLoop_events_yield run.id tasks 0 (pipelineInput st1 did items force) st1, rfl⟩
  · exact ⟨run.id, _, _, hevs,
      runTasksLoop_events_yield run.id tasks 0 (pipelineInput st1 did items force) st1, rfl⟩

theorem C1_event_stream_shape_witness :
    ∃ rid mids term, demoOkEvents = .started rid :: mids ++ [term] ∧
      (∀ ev ∈ mids, ev.isYield = true) ∧ term.isTerminal = true :=
  C1_event_stream_shape 1 2 [idTask] demoItems false emptyStore demoOkState demoOkEvents rfl

/-- Claim C2: operation `begin` fails with `ConflictError` exactly when an active
run exists for the (pipeline, dataset) pair; otherwise it creates the
run in `started`, and afterwards that run is the unique active run for
the pair while every other pair's active runs are untouched — so at most
one active run per pair exists at any instant. -/
theorem C2_single_active_run (st : EngineState) (pid did : Nat) :
    ((activeRuns st pid did).isEmpty = false → begin pid did st = .error .conflict) ∧
    (∀ run st', begin pid did st = .ok (run, st') →
      run.status = .started ∧
      activeRuns st' pid did = [run] ∧
      (∀ p d, ¬(p = pid ∧ d = did) → activeRuns st' p d = activeRuns st p d) ∧
      (activeRuns st pid did).isEmpty = true) := by
  constructor
  · intro h
    unfold begin
    rw [if_neg (by simp [h])]
  · intro run st' h
    obtain ⟨hrun, hst', hempty⟩ := begin_ok_inv pid did st run st' h
    have hnil : activeRuns st pid did = [] := List.isEmpty_iff.mp hempty
    subst hrun
    subst hst'
    refine ⟨rfl, ?_, ?_, hempty⟩
    · show List.filter _ (_ :: st.runs) = _
      rw [List.filter_cons_of_pos (by simp [isActiveStatus])]
      unfold activeRuns at hnil
      rw [hnil]
    · intro p d hpd
      show List.filter _ (_ :: st.runs) = _
      rw [List.filter_cons_of_neg ?_]
      · rfl
      · simp only [Bool.and_eq_true, beq_iff_eq, not_and]
        intro h1 _
        exact hpd ⟨h1.1.symm, h1.2.symm⟩

theorem C2_single_active_run_witness :
    (⟨0, 1, 2, .started⟩ : PipelineRun).status = .started ∧
    activeRuns ⟨[⟨0, 1, 2, .started⟩], [], [], 1, 0⟩ 1 2 = [⟨0, 1, 2, .started⟩] ∧
    (∀ p d, ¬(p = 1 ∧ d = 2) →
      activeRuns ⟨[⟨0, 1, 2, .started⟩], [], [], 1, 0⟩ p d = activeRuns emptyStore p d) ∧
    (activeRuns emptyStore 1 2).isEmpty = true :=
  (C2_single_active_run emptyStore 1 2).2 ⟨0, 1, 2, .started⟩
    ⟨[⟨0, 1, 2, .started⟩], [], [], 1, 0⟩ rfl

theorem getLast_cons_concat {α : Type} (a x : α) (l : List α) :
    (a :: l ++ [x]).getLast? = some x := by
  rw [List.getLast?_concat]

/-- Claim C6: operation `finalize` moves the run to the requested terminal outcome,
finalizing a run whose records are already terminal is a no-op (not an
error — the model's `finalize` is total), and a duplicate `finalize`
after a terminal `finalize` changes nothing. -/
theorem C6_finalize_idempotent (st : EngineState) (rid : Nat) (o oFirst : PipelineRunStatus) :
    ((∀ r ∈ st.runs, r.id = rid → terminalStatus r.status = true) → finalize rid o st = st) ∧
    (∀ r ∈ st.runs, r.id = rid → terminalStatus r.status = false →
      { r with status := o } ∈ (finalize rid o st).runs) ∧
    (terminalStatus oFirst = true →
      finalize rid o (finalize rid oFirst st) = finalize rid oFirst st) := by
  refine ⟨finalize_noop rid o st, ?_, ?_⟩
  · intro r hr hid hnt
    exact finalize_transition rid o st r hr hid hnt
  · intro ho
    exact finalize_noop rid o _ (finalize_terminal rid oFirst st ho)

theorem C6_finalize_idempotent_witness :
    finalize 0 .errored ⟨[⟨0, 1, 2, .completed⟩], [], [], 1, 0⟩ =
      ⟨[⟨0, 1, 2, .completed⟩], [], [], 1, 0⟩ :=
  (C6_finalize_idempotent ⟨[⟨0, 1, 2, .completed⟩], [], [], 1, 0⟩ 0 .errored .completed).1
    (by decide)

/-- Claim C7: after a failed run every item the run touched (its filtered
input set) has DataItemStatus `error` in the final store, and `error`
items are not skipped by the idempotence filter on a later run — they
remain eligible without forcing reprocessing. -/
theorem C7_error_items_retryable (pid did : Nat)
    (tasks : List (DataItem → Except String DataItem)) (items : List DataItem)
    (force : Bool) (st0 st' : EngineState) (evs : List PipelineRunInfo) (e : String)
    (h : run_pipeline pid did tasks items force st0 = .ok (st', evs))
    (hlast : evs.getLast? = some (.errored e)) :
    (∀ f ∈ (pipelineInput st0 did items force).map (fun i => i.fingerprint),
      getItemStatus st' did f = .error) ∧
    (∀ (st : EngineState) (d : Nat) (its : List DataItem) (i : DataItem), i ∈ its →
      getItemStatus st d i.fingerprint = .error →
      i ∈ pipelineInput st d its false) := by
  constructor
  · intro f hf
    obtain ⟨run, st1, hb, hcase⟩ := run_pipeline_inv pid did tasks items force st0 st' evs h
    obtain ⟨hrun, hst1, _⟩ := begin_ok_inv pid did st0 run st1 hb
    have hinp : pipelineInput st1 did items force = pipelineInput st0 did items force := by
      subst hst1
      rfl
    rcases hcase with ⟨fin, ho, hst, hevs⟩ | ⟨e2, ho, hst, hevs⟩
    · rw [hevs, getLast_cons_concat] at hlast
      simp at hlast
    · subst hst
      show getItemStatus
        (markItems did ((pipelineInput st1 did items force).map (fun i => i.fingerprint))
          .error run.id
          (runTasksLoop run.id tasks 0 (pipelineInput st1 did items force) st1).state) did f =
        .error
      rw [getItemStatus_markItems]
      have hmem : f ∈ (pipelineInput st1 did items force).map (fun i => i.fingerprint) := by
        rw [hinp]
        exact hf
      rw [if_pos ⟨rfl, hmem⟩]
  · intro st d its i hi hstatus
    show i ∈ its.filter (fun i => !(getItemStatus st d i.fingerprint == .done))
    refine List.mem_filter.2 ⟨hi, ?_⟩
    rw [hstatus]
    rfl

theorem C7_error_items_retryable_witness :
    (∀ f ∈ (pipelineInput emptyStore 2 demoItems false).map (fun i => i.fingerprint),
      getItemStatus demoFailState 2 f = .error) ∧
    (∀ (st : EngineState) (d : Nat) (its : List DataItem) (i : DataItem), i ∈ its →
      getItemStatus st d i.fingerprint = .error →
      i ∈ pipelineInput st d its false) :=
  C7_error_items_retryable 1 2 [idTask, failTask, idTask] demoItems false emptyStore
    demoFailState demoFailEvents "boom" rfl rfl

/-- Claim C4: when task K of N fails, no TaskRun is created for tasks
K+1..N (exactly K task-run ids were allocated and every TaskRun of the
run has ordinal below K), `record_task_end(errored)` is recorded for
task K, the in-flight items are marked `error`, the PipelineRun ends
`errored`, and the caller sees a terminal `Errored` event. -/
theorem C4_fail_fast (pid did : Nat)
    (pre : List (DataItem → Except String DataItem)) (t : DataItem → Except String DataItem)
    (post : List (DataItem → Except String DataItem)) (items : List DataItem) (force : Bool)
    (st0 st' : EngineState) (evs : List PipelineRunInfo) (mid : List DataItem) (e : String)
    (hwf : wfStore st0)
    (h : run_pipeline pid did (pre ++ t :: post) items force st0 = .ok (st', evs))
    (hpre : applyTasks pre (pipelineInput st0 did items force) = .ok mid)
    (hfail : exceptMapM t mid = .error e) :
    st'.next_task_run_id = st0.next_task_run_id + (pre.length + 1) ∧
    (∀ tr ∈ st'.task_runs, tr.pipeline_run_id = st0.next_run_id → tr.ordinal ≤ pre.length) ∧
    (∃ tr ∈ st'.task_runs, tr.pipeline_run_id = st0.next_run_id ∧ tr.ordinal = pre.length ∧
      tr.status = .errored ∧ tr.items = mid.map (fun i => i.fingerprint)) ∧
    (∃ r ∈ st'.runs, r.id = st0.next_run_id ∧ r.status = .errored) ∧
    (∀ f ∈ (pipelineInput st0 did items force).map (fun i => i.fingerprint),
      getItemStatus st' did f = .error) ∧
    evs.getLast? = some (.errored e) := by
  obtain ⟨run, st1, hb, hcase⟩ :=
    run_pipeline_inv pid did (pre ++ t :: post) items force st0 st' evs h
  obtain ⟨hrun, hst1, _⟩ := begin_ok_inv pid did st0 run st1 hb
  have hrid : run.id = st0.next_run_id := by rw [hrun]
  have htr1 : st1.task_runs = st0.task_runs := by rw [hst1]
  have hnx : st1.next_task_run_id = st0.next_task_run_id := by rw [hst1]
  have hruns1 : st1.runs = run :: st0.runs := by rw [hst1]
  have hinp : pipelineInput st1 did items force = pipelineInput st0 did items force := by
    rw [hst1]
    rfl
  have hwfT : wfTaskIds st1 := by
    intro tr htr
    rw [htr1] at htr
    rw [hnx]
    exact hwf.1 tr htr
  have hloop := runTasksLoop_err run.id pre t post 0 (pipelineInput st1 did items force) st1
    mid e hwfT (by rw [hinp]; exact hpre) hfail
  rcases hcase with ⟨fin, ho, _, _⟩ | ⟨e2, ho, hst, hevs⟩
  · rw [hloop.1] at ho
    exact Except.noConfusion ho
  · have he2 : e2 = e := by
      have := ho.symm.trans hloop.1
      injection this
    subst he2
    subst hst
    have hM := markItems_runs did .error run.id
      ((pipelineInput st1 did items force).map (fun i => i.fingerprint))
      (runTasksLoop run.id (pre ++ t :: post) 0 (pipelineInput st1 did items force) st1).state
    have hLruns :=
      (runTasksLoop_inv run.id (pre ++ t :: post) 0 (pipelineInput st1 did items force) st1).1
    refine ⟨?_, ?_, ?_, ?_, ?_, ?_⟩
    · show (markItems did ((pipelineInput st1 did items force).map (fun i => i.fingerprint))
        .error run.id
        (runTasksLoop run.id (pre ++ t :: post) 0
          (pipelineInput st1 did items force) st1).state).next_task_run_id = _
      rw [hM.2.2.2, hloop.2.1, hnx]
    · intro tr htr hpid
      have htr' : tr ∈ (runTasksLoop run.id (pre ++ t :: post) 0
          (pipelineInput st1 did items force) st1).state.task_runs := by
        rw [← hM.2.1]
        exact htr
      rcases hloop.2.2.1 tr htr' with hold | ⟨_, _, hord⟩
      · rw [htr1] at hold
        exact absurd hpid (Nat.ne_of_lt (hwf.2.2 tr hold))
      · omega
    · obtain ⟨tr, htr, h1, h2, h3, h4⟩ := hloop.2.2.2
      refine ⟨tr, ?_, ?_, ?_, h3, h4⟩
      · show tr ∈ (markItems did
          ((pipelineInput st1 did items force).map (fun i => i.fingerprint)) .error run.id
          (runTasksLoop run.id (pre ++ t :: post) 0
            (pipelineInput st1 did items force) st1).state).task_runs
        rw [hM.2.1]
        exact htr
      · rw [h1, hrid]
      · omega
    · refine ⟨{ run with status := .errored }, ?_, ?_, rfl⟩
      · apply finalize_transition run.id .errored _ run ?_ rfl ?_
        · rw [hM.1, hLruns, hruns1]
          exact List.mem_cons_self _ _
        · rw [hrun]
          rfl
      · show run.id = st0.next_run_id
        exact hrid
    · intro f hf
      show getItemStatus (markItems did
        ((pipelineInput st1 did items force).map (fun i => i.fingerprint)) .error run.id
        (runTasksLoop run.id (pre ++ t :: post) 0
          (pipelineInput st1 did items force) st1).state) did f = .error
      rw [getItemStatus_markItems]
      have hmem : f ∈ (pipelineInput st1 did items force).map (fun i => i.fingerprint) := by
        rw [hinp]
        exact hf
      rw [if_pos ⟨rfl, hmem⟩]
    · rw [hevs, getLast_cons_concat]

theorem C4_fail_fast_witness :
    demoFailState.next_task_run_id = emptyStore.next_task_run_id + ([idTask].length + 1) ∧
    (∀ tr ∈ demoFailState.task_runs, tr.pipeline_run_id = emptyStore.next_run_id →
      tr.ordinal ≤ [idTask].length) ∧
    (∃ tr ∈ demoFailState.task_runs, tr.pipeline_run_id = emptyStore.next_run_id ∧
      tr.ordinal = [idTask].length ∧ tr.status = .errored ∧
      tr.items = demoItems.map (fun i => i.fingerprint)) ∧
    (∃ r ∈ demoFailState.runs, r.id = emptyStore.next_run_id ∧ r.status = .errored) ∧
    (∀ f ∈ (pipelineInput emptyStore 2 demoItems false).map (fun i => i.fingerprint),
      getItemStatus demoFailState 2 f = .error) ∧
    demoFailEvents.getLast? = some (.errored "boom") :=
  C4_fail_fast 1 2 [idTask] failTask [idTask] demoItems false emptyStore demoFailState
    demoFailEvents demoItems "boom" (by decide) rfl rfl rfl

theorem getItemStatus_finalize (rid : Nat) (o : PipelineRunStatus) (st : EngineState)
    (d f : Nat) : getItemStatus (finalize rid o st) d f = getItemStatus st d f := rfl

/-- Claim C3: re-running the same pipeline over the same dataset without
`force_reprocess`, after a first run that completed with no task errors,
reprocesses nothing: no fingerprint of the dataset appears in the
item-level trace of any TaskRun created by the second run. -/
theorem C3_second_run_skips_done (pid did : Nat)
    (tasks : List (DataItem → Except String DataItem)) (items : List DataItem)
    (st0 st1 st2 : EngineState) (evs1 evs2 : List PipelineRunInfo)
    (hwf : wfStore st0)
    (h1 : run_pipeline pid did tasks items false st0 = .ok (st1, evs1))
    (h1c : evs1.getLast?.map PipelineRunInfo.isCompletedEv = some true)
    (h2 : run_pipeline pid did tasks items false st1 = .ok (st2, evs2)) :
    ∀ tr ∈ st2.task_runs, tr ∉ st1.task_runs →
      ∀ f ∈ items.map (fun i => i.fingerprint), f ∉ tr.items := by
  obtain ⟨runA, stA, hbA, hcaseA⟩ := run_pipeline_inv pid did tasks items false st0 st1 evs1 h1
  obtain ⟨hrunA, hstA, _⟩ := begin_ok_inv pid did st0 runA stA hbA
  have htrA : stA.task_runs = st0.task_runs := by rw [hstA]
  have hnxA : stA.next_task_run_id = st0.next_task_run_id := by rw [hstA]
  have hwfA : wfTaskIds stA := by
    intro tr htr
    rw [htrA] at htr
    rw [hnxA]
    exact hwf.1 tr htr
  rcases hcaseA with ⟨fin, hoA, hst1eq, hevs1⟩ | ⟨e, hoA, hst1eq, hevs1⟩
  swap
  · rw [hevs1, getLast_cons_concat] at h1c
    simp [PipelineRunInfo.isCompletedEv] at h1c
  have hMA := markItems_runs did .done runA.id
    ((pipelineInput stA did items false).map (fun i => i.fingerprint))
    (runTasksLoop runA.id tasks 0 (pipelineInput stA did items false) stA).state
  have hLA := runTasksLoop_inv runA.id tasks 0 (pipelineInput stA did items false) stA
  have hwfL : wfTaskIds
      (runTasksLoop runA.id tasks 0 (pipelineInput stA did items false) stA).state :=
    runTasksLoop_wfTaskIds runA.id tasks 0 (pipelineInput stA did items false) stA hwfA
  -- every dataset fingerprint is `done` in the store the first run returns
  have hdone : ∀ f ∈ items.map (fun i => i.fingerprint),
      getItemStatus st1 did f = .done := by
    intro f hf
    obtain ⟨i, hi, hif⟩ := List.mem_map.1 hf
    rw [hst1eq, getItemStatus_finalize, getItemStatus_markItems]
    by_cases hmem : did = did ∧
        f ∈ (pipelineInput stA did items false).map (fun i => i.fingerprint)
    · rw [if_pos hmem]
    · rw [if_neg hmem]
      have hgL : getItemStatus
          (runTasksLoop runA.id tasks 0 (pipelineInput stA did items false) stA).state did f =
          getItemStatus stA did f := by
        unfold getItemStatus
        rw [hLA.2.1]
      rw [hgL]
      have hni : i ∉ pipelineInput stA did items false := by
        intro hc
        exact hmem ⟨rfl, List.mem_map.2 ⟨i, hc, hif⟩⟩
      have hb : (getItemStatus stA did i.fingerprint == DataItemStatus.done) = true := by
        cases hx : getItemStatus stA did i.fingerprint == DataItemStatus.done with
        | true => rfl
        | false =>
          exact absurd (List.mem_filter.2 ⟨hi, by show (!_) = true; rw [hx]; rfl⟩) hni
      rw [← hif]
      exact beq_iff_eq.mp hb
  -- the first run also leaves the task-run id discipline intact
  have hwf1T : wfTaskIds st1 := by
    intro tr htr
    rw [hst1eq] at htr ⊢
    show tr.id <
      (markItems did ((pipelineInput stA did items false).map (fun i => i.fingerprint))
        .done runA.id
        (runTasksLoop runA.id tasks 0 (pipelineInput stA did items false) stA).state).next_task_run_id
    rw [hMA.2.2.2]
    apply hwfL
    have htr' : tr ∈ (markItems did
        ((pipelineInput stA did items false).map (fun i => i.fingerprint)) .done runA.id
        (runTasksLoop runA.id tasks 0 (pipelineInput stA did items false) stA).state).task_runs := htr
    rw [hMA.2.1] at htr'
    exact htr'
  -- second run
  obtain ⟨runB, stB, hbB, hcaseB⟩ := run_pipeline_inv pid did tasks items false st1 st2 evs2 h2
  obtain ⟨hrunB, hstB, _⟩ := begin_ok_inv pid did st1 runB stB hbB
  have htrB : stB.task_runs = st1.task_runs := by rw [hstB]
  have hnxB : stB.next_task_run_id = st1.next_task_run_id := by rw [hstB]
  have hwfB : wfTaskIds stB := by
    intro tr htr
    rw [htrB] at htr
    rw [hnxB]
    exact hwf1T tr htr
  have hinpB : pipelineInput stB did items false = [] := by
    show items.filter (fun i => !(getItemStatus stB did i.fingerprint == .done)) = []
    apply List.filter_eq_nil_iff.2
    intro i hi
    have hg : getItemStatus stB did i.fingerprint = .done := by
      have hsame : getItemStatus stB did i.fingerprint = getItemStatus st1 did i.fingerprint := by
        rw [hstB]
        rfl
      rw [hsame]
      exact hdone i.fingerprint (List.mem_map.2 ⟨i, hi, rfl⟩)
    rw [hg]
    simp
  rw [hinpB] at hcaseB
  obtain ⟨hoB, hmemB⟩ := runTasksLoop_nil_stream runB.id tasks 0 stB hwfB
  rcases hcaseB with ⟨fin2, hoB', hst2eq, _⟩ | ⟨e2, hoB', _, _⟩
  swap
  · rw [hoB] at hoB'
    exact Except.noConfusion hoB'
  have hMB := markItems_runs did .done runB.id
    (List.map (fun i => i.fingerprint) ([] : List DataItem))
    (runTasksLoop runB.id tasks 0 [] stB).state
  intro tr htr hnot f hfm
  have htr' : tr ∈ (runTasksLoop runB.id tasks 0 [] stB).state.task_runs := by
    rw [hst2eq] at htr
    have htr'' : tr ∈ (markItems did (List.map (fun i => i.fingerprint) ([] : List DataItem))
        .done runB.id (runTasksLoop runB.id tasks 0 [] stB).state).task_runs := htr
    rw [hMB.2.1] at htr''
    exact htr''
  rcases hmemB tr htr' with hold | hnil
  · rw [htrB] at hold
    exact absurd hold hnot
  · rw [hnil]
    exact List.not_mem_nil f

theorem C3_second_run_skips_done_witness :
    (1 : Nat) ∉ (⟨1, 1, 0, TaskRunStatus.completed, []⟩ : TaskRun).items :=
  C3_second_run_skips_done 1 2 [idTask] demoItems emptyStore demoOkState demoOk2State
    demoOkEvents demoOk2Events (by decide) rfl rfl rfl
    ⟨1, 1, 0, TaskRunStatus.completed, []⟩ (by decide) (by decide) 1 (by decide)
